import Mathlib

/-!
Verification development for the interaction-evolution data helpers
(`data_funcs.py`): date parsing (`date_to_datetime` built on Python
`strptime` with formats `%Y-%m-%d %H:%M:%S` and `%Y-%m-%d`), the
moving average (`np.convolve` in mode `same`), binarisation, the
day-key extraction, the groupby-mean daily aggregation and the time
axis.  Python strings are modelled as `List Char`, Python floats as
`ℚ` (the numeric values occurring in the pipeline are exact small
rationals), raised exceptions as `none`.
-/

/-- Numeric value of an ASCII digit character. -/
def charVal (c : Char) : Nat := c.toNat - 48

/-- The digit character of a value below ten. -/
def digitChar : Nat → Char
  | 0 => '0' | 1 => '1' | 2 => '2' | 3 => '3' | 4 => '4'
  | 5 => '5' | 6 => '6' | 7 => '7' | 8 => '8' | 9 => '9'
  | _ => '?'

/-- ASCII whitespace, the characters matched by the regex class used for a
literal blank in a Python `strptime` format string. -/
def isSpace (c : Char) : Bool :=
  c = ' ' || c = '\t' || c = '\n' || c = '\x0b' || c = '\x0c' || c = '\r'

/-- Matcher for `%Y` in CPython `_strptime`: exactly four digits. -/
def parseY : List Char → Option (Nat × List Char)
  | a :: b :: c :: d :: rest =>
    if a.isDigit && b.isDigit && c.isDigit && d.isDigit then
      some (1000 * charVal a + 100 * charVal b + 10 * charVal c + charVal d, rest)
    else none
  | _ => none

/-- Matcher for a literal character in the format string. -/
def lit (c : Char) : List Char → Option (List Char)
  | x :: rest => if x = c then some rest else none
  | [] => none

/-- Matcher for one-or-more whitespace (the translation of a blank in the
format).  The following format directive always requires a digit, so the
greedy maximal munch is equivalent to the regex `\s+`. -/
def eatWs : List Char → Option (List Char)
  | c :: rest => if isSpace c then some (rest.dropWhile isSpace) else none
  | [] => none

/-- Candidate matches of `%m`, regex `1[0-2]|0[1-9]|[1-9]`, in the
regex engine's preference order. -/
def monthAlts : List Char → List (Nat × List Char)
  | a :: b :: rest =>
    (if a = '1' && ('0' ≤ b && b ≤ '2') then [(10 + charVal b, rest)] else []) ++
    (if a = '0' && ('1' ≤ b && b ≤ '9') then [(charVal b, rest)] else []) ++
    (if '1' ≤ a && a ≤ '9' then [(charVal a, b :: rest)] else [])
  | [a] => if '1' ≤ a && a ≤ '9' then [(charVal a, [])] else []
  | [] => []

/-- Candidate matches of `%d`, regex `3[01]|[12]\d|0[1-9]|[1-9]`. -/
def dayAlts : List Char → List (Nat × List Char)
  | a :: b :: rest =>
    (if a = '3' && (b = '0' || b = '1') then [(30 + charVal b, rest)] else []) ++
    (if (a = '1' || a = '2') && b.isDigit then [(10 * charVal a + charVal b, rest)] else []) ++
    (if a = '0' && ('1' ≤ b && b ≤ '9') then [(charVal b, rest)] else []) ++
    (if '1' ≤ a && a ≤ '9' then [(charVal a, b :: rest)] else [])
  | [a] => if '1' ≤ a && a ≤ '9' then [(charVal a, [])] else []
  | [] => []

/-- Candidate matches of `%H`, regex `2[0-3]|[0-1]\d|\d`. -/
def hourAlts : List Char → List (Nat × List Char)
  | a :: b :: rest =>
    (if a = '2' && ('0' ≤ b && b ≤ '3') then [(20 + charVal b, rest)] else []) ++
    (if (a = '0' || a = '1') && b.isDigit then [(10 * charVal a + charVal b, rest)] else []) ++
    (if a.isDigit then [(charVal a, b :: rest)] else [])
  | [a] => if a.isDigit then [(charVal a, [])] else []
  | [] => []

/-- Candidate matches of `%M`, regex `[0-5]\d|\d`. -/
def minuteAlts : List Char → List (Nat × List Char)
  | a :: b :: rest =>
    (if ('0' ≤ a && a ≤ '5') && b.isDigit then [(10 * charVal a + charVal b, rest)] else []) ++
    (if a.isDigit then [(charVal a, b :: rest)] else [])
  | [a] => if a.isDigit then [(charVal a, [])] else []
  | [] => []

/-- Candidate matches of `%S`, regex `6[0-1]|[0-5]\d|\d`. -/
def secondAlts : List Char → List (Nat × List Char)
  | a :: b :: rest =>
    (if a = '6' && (b = '0' || b = '1') then [(60 + charVal b, rest)] else []) ++
    (if ('0' ≤ a && a ≤ '5') && b.isDigit then [(10 * charVal a + charVal b, rest)] else []) ++
    (if a.isDigit then [(charVal a, b :: rest)] else [])
  | [a] => if a.isDigit then [(charVal a, [])] else []
  | [] => []

/-- First candidate on which the continuation succeeds: the ordered
backtracking of a regex alternation. -/
def firstSome {α β : Type} (f : α → Option β) : List α → Option β
  | [] => none
  | x :: l =>
    match f x with
    | some b => some b
    | none => firstSome f l

/-- A Python `datetime.datetime` value (microseconds are never produced by
the two formats at hand and are omitted). -/
structure PyDateTime where
  year : Nat
  month : Nat
  day : Nat
  hour : Nat
  minute : Nat
  second : Nat
deriving DecidableEq

/-- Gregorian leap-year test, as in Python `calendar.isleap`. -/
def isLeap (y : Nat) : Bool :=
  (y % 4 = 0 && y % 100 ≠ 0) || y % 400 = 0

/-- Length of a month, as validated by the `datetime` constructor. -/
def daysInMonth (y m : Nat) : Nat :=
  if m = 2 then (if isLeap y then 29 else 28)
  else if m = 4 ∨ m = 6 ∨ m = 9 ∨ m = 11 then 30
  else 31

/-- The date-field bounds enforced by the `datetime.datetime` constructor
(`MINYEAR = 1`, `MAXYEAR = 9999`). -/
def validDate (y m d : Nat) : Prop :=
  1 ≤ y ∧ y ≤ 9999 ∧ 1 ≤ m ∧ m ≤ 12 ∧ 1 ≤ d ∧ d ≤ daysInMonth y m

/-- The time-field bounds enforced by the `datetime.datetime` constructor. -/
def validTime (h mi s : Nat) : Prop :=
  h ≤ 23 ∧ mi ≤ 59 ∧ s ≤ 59

instance (y m d : Nat) : Decidable (validDate y m d) := by
  unfold validDate; infer_instance

instance (h mi s : Nat) : Decidable (validTime h mi s) := by
  unfold validTime; infer_instance

/-- The `datetime.datetime` constructor: `ValueError` outside the bounds
(this is what rejects the leap seconds 60 and 61 admitted by the `%S`
regex, and the year 0000 admitted by `%Y`). -/
def mkDatetime (y m d h mi s : Nat) : Option PyDateTime :=
  if validDate y m d ∧ validTime h mi s then some (PyDateTime.mk y m d h mi s)
  else none

/-- Stage of the `%Y-%m-%d %H:%M:%S` match after the minutes: literal `:`
then `%S` then end of input. -/
def tsSec (y m d h mi : Nat) (s9 : List Char) : Option (Nat × Nat × Nat × Nat × Nat × Nat) :=
  Option.bind (lit ':' s9) (fun s10 =>
  firstSome (fun q => if q.2 = [] then some (y, m, d, h, mi, q.1) else none) (secondAlts s10))

/-- Stage after the hours: literal `:` then `%M` then the rest. -/
def tsMin (y m d h : Nat) (s7 : List Char) : Option (Nat × Nat × Nat × Nat × Nat × Nat) :=
  Option.bind (lit ':' s7) (fun s8 =>
  firstSome (fun q => tsSec y m d h q.1 q.2) (minuteAlts s8))

/-- Stage after the day: whitespace then `%H` then the rest. -/
def tsHour (y m d : Nat) (s5 : List Char) : Option (Nat × Nat × Nat × Nat × Nat × Nat) :=
  Option.bind (eatWs s5) (fun s6 =>
  firstSome (fun q => tsMin y m d q.1 q.2) (hourAlts s6))

/-- Stage after the month: literal `-` then `%d` then the rest. -/
def tsDay (y m : Nat) (s3 : List Char) : Option (Nat × Nat × Nat × Nat × Nat × Nat) :=
  Option.bind (lit '-' s3) (fun s4 =>
  firstSome (fun q => tsHour y m q.1 q.2) (dayAlts s4))

/-- Full regex match of the format `%Y-%m-%d %H:%M:%S` against the whole
input, with the regex engine's ordered backtracking. -/
def matchTS (s : List Char) : Option (Nat × Nat × Nat × Nat × Nat × Nat) :=
  Option.bind (parseY s) (fun p =>
  Option.bind (lit '-' p.2) (fun s2 =>
  firstSome (fun q => tsDay p.1 q.1 q.2) (monthAlts s2)))

/-- Stage of the `%Y-%m-%d` match after the month: literal `-` then `%d`
then end of input. -/
def dateDay (y m : Nat) (s3 : List Char) : Option (Nat × Nat × Nat) :=
  Option.bind (lit '-' s3) (fun s4 =>
  firstSome (fun q => if q.2 = [] then some (y, m, q.1) else none) (dayAlts s4))

/-- Full regex match of the format `%Y-%m-%d` against the whole input. -/
def matchDate (s : List Char) : Option (Nat × Nat × Nat) :=
  Option.bind (parseY s) (fun p =>
  Option.bind (lit '-' p.2) (fun s2 =>
  firstSome (fun q => dateDay p.1 q.1 q.2) (monthAlts s2)))

/-- Python `datetime.datetime.strptime(s, "%Y-%m-%d %H:%M:%S")`:
regex match, then the constructor's validation. -/
def strptime_ts (s : List Char) : Option PyDateTime :=
  match matchTS s with
  | some (y, m, d, h, mi, sec) => mkDatetime y m d h mi sec
  | none => none

/-- Python `datetime.datetime.strptime(s, "%Y-%m-%d")`. -/
def strptime_date (s : List Char) : Option PyDateTime :=
  match matchDate s with
  | some (y, m, d) => mkDatetime y m d 0 0 0
  | none => none

/-- The source's `date_to_datetime`: try the timestamp format on the string
with its last four characters removed (`date[:-4]`); on `ValueError` fall
back to the date-only format on the whole string.  `none` models an
uncaught `ValueError`. -/
def date_to_datetime (s : List Char) : Option PyDateTime :=
  match strptime_ts (s.take (s.length - 4)) with
  | some dt => some dt
  | none => strptime_date s

/-- Two-digit zero-padded rendering of a value below one hundred. -/
def pad2 (n : Nat) : List Char := [digitChar (n / 10), digitChar (n % 10)]

/-- Three-digit zero-padded rendering of a value below one thousand. -/
def pad3 (n : Nat) : List Char :=
  [digitChar (n / 100), digitChar (n / 10 % 10), digitChar (n % 10)]

/-- Four-digit zero-padded rendering of a value below ten thousand. -/
def pad4 (n : Nat) : List Char :=
  [digitChar (n / 1000), digitChar (n / 100 % 10), digitChar (n / 10 % 10), digitChar (n % 10)]

/-- The canonical date string `YYYY-MM-DD` with the given fields. -/
def fmtDate (y m d : Nat) : List Char :=
  pad4 y ++ '-' :: (pad2 m ++ '-' :: pad2 d)

/-- The canonical timestamp string `YYYY-MM-DD HH:MM:SS` (no millisecond
suffix) with the given fields. -/
def fmtTimestamp (y m d h mi s : Nat) : List Char :=
  fmtDate y m d ++ ' ' :: (pad2 h ++ ':' :: (pad2 mi ++ ':' :: pad2 s))

/-- The canonical timestamp string `YYYY-MM-DD HH:MM:SS.mmm` with the given
fields and a three-digit millisecond suffix. -/
def fmtTimestampMs (y m d h mi s ms : Nat) : List Char :=
  fmtTimestamp y m d h mi s ++ '.' :: pad3 ms

/-- Modelled from the spec: a string of the form `YYYY-MM-DD` denoting a
valid calendar date (the first accepted input shape named by the spec for
DateParser). -/
def specCanonDate (s : List Char) : Bool :=
  match s with
  | [y1, y2, y3, y4, c1, m1, m2, c2, d1, d2] =>
    y1.isDigit && y2.isDigit && y3.isDigit && y4.isDigit &&
    m1.isDigit && m2.isDigit && d1.isDigit && d2.isDigit &&
    c1 = '-' && c2 = '-' &&
    decide (validDate (1000 * charVal y1 + 100 * charVal y2 + 10 * charVal y3 + charVal y4)
      (10 * charVal m1 + charVal m2) (10 * charVal d1 + charVal d2))
  | _ => false

/-- Modelled from the spec: a string of the form `YYYY-MM-DD HH:MM:SS.mmm`
denoting a valid date and time (the second accepted input shape named by
the spec for DateParser). -/
def specCanonTimestampMs (s : List Char) : Bool :=
  match s with
  | [y1, y2, y3, y4, c1, m1, m2, c2, d1, d2, sp, h1, h2, c3, i1, i2, c4, s1, s2, dot, f1, f2, f3] =>
    y1.isDigit && y2.isDigit && y3.isDigit && y4.isDigit &&
    m1.isDigit && m2.isDigit && d1.isDigit && d2.isDigit &&
    h1.isDigit && h2.isDigit && i1.isDigit && i2.isDigit &&
    s1.isDigit && s2.isDigit && f1.isDigit && f2.isDigit && f3.isDigit &&
    c1 = '-' && c2 = '-' && sp = ' ' && c3 = ':' && c4 = ':' && dot = '.' &&
    decide (validDate (1000 * charVal y1 + 100 * charVal y2 + 10 * charVal y3 + charVal y4)
      (10 * charVal m1 + charVal m2) (10 * charVal d1 + charVal d2)) &&
    decide (validTime (10 * charVal h1 + charVal h2) (10 * charVal i1 + charVal i2)
      (10 * charVal s1 + charVal s2))
  | _ => false

/-- Coefficient `k` of the full discrete convolution of two sequences
(entries out of range contribute zero). -/
def convFullCoeff (a v : List ℚ) (k : Nat) : ℚ :=
  ∑ i ∈ Finset.range (k + 1), a.getD i 0 * v.getD (k - i) 0

/-- Full-mode `np.convolve(a, v)`: length `len(a) + len(v) - 1`; numpy
raises `ValueError` when either argument is empty. -/
def npConvolve (a v : List ℚ) : Option (List ℚ) :=
  if a.length = 0 ∨ v.length = 0 then none
  else some ((List.range (a.length + v.length - 1)).map (convFullCoeff a v))

/-- Same-mode `np.convolve(a, v)`: the centred slice of the full
convolution, of length `max(len(a), len(v))` starting at
`(min(len(a), len(v)) - 1) // 2`. -/
def npConvolveSame (a v : List ℚ) : Option (List ℚ) :=
  Option.map
    (fun full => (full.drop ((min a.length v.length - 1) / 2)).take (max a.length v.length))
    (npConvolve a v)

/-- The source's `moving_average`: convolution with the uniform kernel
`np.ones((window,)) / window` in mode `same`. -/
def moving_average (data : List ℚ) (window : Nat) : Option (List ℚ) :=
  npConvolveSame data (List.replicate window (1 / (window : ℚ)))

/-- The source's `binarise`: `int(x == value)` for each element. -/
def binarise {α : Type} [DecidableEq α] (data : List α) (value : α) : List Nat :=
  data.map (fun x => if x = value then 1 else 0)

/-- A cell of a pandas dataframe as used in this pipeline: a string, a
number, or the NaN produced by `.str` accessors on non-strings. -/
inductive Cell where
  | str : List Char → Cell
  | num : ℚ → Cell
  | nan : Cell
deriving DecidableEq

/-- A pandas dataframe: named columns of cells, in insertion order. -/
structure DataFrame where
  cols : List (List Char × List Cell)
deriving DecidableEq

/-- Column lookup `df[name]`; `none` models the `KeyError` on a missing
column. -/
def dfGetCol (df : DataFrame) (name : List Char) : Option (List Cell) :=
  Option.map Prod.snd (df.cols.find? (fun c => decide (c.1 = name)))

/-- Whether the dataframe has a column of the given name. -/
def dfHasCol (df : DataFrame) (name : List Char) : Bool :=
  df.cols.any (fun c => decide (c.1 = name))

/-- Column assignment `df[name] = vals`: overwrites an existing column of
that name in place, otherwise appends a new column. -/
def dfAssign (df : DataFrame) (name : List Char) (vals : List Cell) : DataFrame :=
  if dfHasCol df name then
    DataFrame.mk (df.cols.map (fun c => if c.1 = name then (name, vals) else c))
  else DataFrame.mk (df.cols ++ [(name, vals)])

/-- A numpy integer stored into a dataframe cell. -/
def natCell (n : Nat) : Cell := Cell.num (Nat.cast n)

/-- The source's `binarise_df`: `df[value] = binarise(df[column], value)`,
then the (mutated) dataframe is returned. -/
def binarise_df (df : DataFrame) (value column : List Char) : Option DataFrame :=
  Option.map
    (fun col => dfAssign df value ((binarise col (Cell.str value)).map natCell))
    (dfGetCol df column)

/-- The column name `day`. -/
def dayKey : List Char := ['d', 'a', 'y']

/-- The column name `date`. -/
def dateKey : List Char := ['d', 'a', 't', 'e']

/-- The column name `status`. -/
def statusKey : List Char := ['s', 't', 'a', 't', 'u', 's']

/-- Pandas `.str.slice(0, 10)` on one cell: the first ten characters of a string,
NaN on a non-string. -/
def pySlice10 : Cell → Cell
  | Cell.str s => Cell.str (s.take 10)
  | _ => Cell.nan

/-- The source's `add_day`: `df['day'] = df['date'].str.slice(0, 10)`. -/
def add_day (df : DataFrame) : Option DataFrame :=
  Option.map (fun dates => dfAssign df dayKey (dates.map pySlice10)) (dfGetCol df dateKey)

/-- Map a fallible function over a list, failing on the first failure: a
Python comprehension in which the body may raise. -/
def optMap {α β : Type} (f : α → Option β) : List α → Option (List β)
  | [] => some []
  | x :: xs =>
    match f x, optMap f xs with
    | some y, some ys => some (y :: ys)
    | _, _ => none

/-- The string held by a cell, if any. -/
def cellStr? : Cell → Option (List Char)
  | Cell.str s => some s
  | _ => none

/-- The number held by a cell, if any. -/
def cellNum? : Cell → Option ℚ
  | Cell.num q => some q
  | _ => none

/-- Lexicographic order on code points: Python string comparison. -/
def strLe : List Char → List Char → Bool
  | [], _ => true
  | _ :: _, [] => false
  | a :: as, b :: bs =>
    if a.toNat < b.toNat then true
    else if b.toNat < a.toNat then false
    else strLe as bs

/-- Python string order as a relation. -/
def keyLe (a b : List Char) : Prop := strLe a b = true

instance : DecidableRel keyLe :=
  fun a b => inferInstanceAs (Decidable (strLe a b = true))

/-- Sort day keys ascending, as `groupby` sorts its group keys. -/
def sortKeys (l : List (List Char)) : List (List Char) :=
  List.insertionSort keyLe l

/-- The distinct elements of a list of keys. -/
def dedupKeys : List (List Char) → List (List Char)
  | [] => []
  | x :: xs => if x ∈ dedupKeys xs then dedupKeys xs else x :: dedupKeys xs

/-- Arithmetic mean of a list of numbers. -/
def mean (l : List ℚ) : ℚ := l.sum / (l.length : ℚ)

/-- The `df.groupby(key, as_index=False)[col].mean()[col]` step, keyed:
one entry per distinct key, ascending, holding the mean of the value
column over the rows with that key. -/
def groupbyMean (df : DataFrame) (key col : List Char) : Option (List (List Char × ℚ)) :=
  Option.bind (dfGetCol df key) (fun kcells =>
  Option.bind (dfGetCol df col) (fun vcells =>
  Option.bind (optMap cellStr? kcells) (fun keys =>
  Option.map (fun vals =>
    (sortKeys (dedupKeys keys)).map (fun k =>
      (k, mean ((keys.zip vals).filterMap (fun q => if q.1 = k then some q.2 else none)))))
    (optMap cellNum? vcells))))

/-- Row order after `df.sort_values(by='day')`: the row indices sorted by
their day key. -/
def sortIdx (days : List (List Char)) : List Nat :=
  (List.insertionSort (fun p q : Nat × List Char => keyLe p.2 q.2)
    ((List.range days.length).zip days)).map Prod.fst

/-- Pandas `df.sort_values(by='day')`: every column reordered by the day keys. -/
def sort_values_day (df : DataFrame) : Option DataFrame :=
  Option.bind (dfGetCol df dayKey) (fun dayCells =>
  Option.map (fun days =>
    DataFrame.mk (df.cols.map (fun c => (c.1, (sortIdx days).filterMap (fun i => c.2.get? i)))))
    (optMap cellStr? dayCells))

/-- The aggregation core of `get_interactions`: add the day column, sort by
day, binarise the status column against the interaction type, group by day
and take the mean — the per-day rates, before smoothing. -/
def interactionsAgg (data : DataFrame) (ty : List Char) : Option (List ℚ) :=
  Option.bind (add_day data) (fun d1 =>
  Option.bind (sort_values_day d1) (fun d2 =>
  Option.bind (binarise_df d2 ty statusKey) (fun d3 =>
  Option.map (fun l => l.map Prod.snd) (groupbyMean d3 dayKey ty))))

/-- The source's `get_interactions`: the per-day rates smoothed by
`moving_average` over the given window. -/
def get_interactions (data : DataFrame) (ty : List Char) (window : Nat) : Option (List ℚ) :=
  Option.bind (interactionsAgg data ty) (fun series => moving_average series window)

/-- Days before the start of a month (non-leap year). -/
def daysBeforeMonth (m : Nat) : Nat :=
  [0, 0, 31, 59, 90, 120, 151, 181, 212, 243, 273, 304, 334].getD m 0

/-- Proleptic Gregorian ordinal of a datetime's date, with 0001-01-01
mapped to 1, as in Python `datetime.toordinal`. -/
def toOrdinal (dt : PyDateTime) : Nat :=
  365 * (dt.year - 1) + (dt.year - 1) / 4 - (dt.year - 1) / 100 + (dt.year - 1) / 400 +
    daysBeforeMonth dt.month +
    (if 2 < dt.month then (if isLeap dt.year then 1 else 0) else 0) + dt.day

/-- The matplotlib `dates.date2num` conversion: days since the 1970-01-01 epoch, fractional
part from the time of day (719162 is the ordinal of 1969-12-31). -/
def date2num (dt : PyDateTime) : ℚ :=
  (toOrdinal dt : ℚ) - 719163 +
    ((3600 * dt.hour + 60 * dt.minute + dt.second : Nat) : ℚ) / 86400

/-- Ascending numeric sort, Python `sorted`. -/
def sortNums (l : List ℚ) : List ℚ :=
  List.insertionSort (fun a b : ℚ => a ≤ b) l

/-- The source's `get_times`: add the day column, sort, parse the distinct
day strings, convert to plot numbers and sort ascending. -/
def get_times (df : DataFrame) : Option (List ℚ) :=
  Option.bind (add_day df) (fun d1 =>
  Option.bind (sort_values_day d1) (fun d2 =>
  Option.bind (dfGetCol d2 dayKey) (fun dayCells =>
  Option.bind (optMap cellStr? dayCells) (fun days =>
  Option.map (fun dts => sortNums (dts.map date2num))
    (optMap (fun s => date_to_datetime s) (dedupKeys days))))))

/-- The status value `Opened`. -/
def openedName : List Char := ['O', 'p', 'e', 'n', 'e', 'd']

/-- The status value `Error`. -/
def errorName : List Char := ['E', 'r', 'r', 'o', 'r']

/-- The status value `Clicked`. -/
def clickedName : List Char := ['C', 'l', 'i', 'c', 'k', 'e', 'd']

/-- The status value `Unsubscribed`. -/
def unsubName : List Char := ['U', 'n', 's', 'u', 'b', 's', 'c', 'r', 'i', 'b', 'e', 'd']

/-- The date string `2021-01-01`. -/
def day20210101 : List Char := ['2', '0', '2', '1', '-', '0', '1', '-', '0', '1']

/-- The four-row table of the end-to-end scenario: every row dated
`2021-01-01`, statuses Opened, Opened, Error, Clicked. -/
def sampleTable : DataFrame :=
  DataFrame.mk
    [(dateKey, [Cell.str day20210101, Cell.str day20210101, Cell.str day20210101,
       Cell.str day20210101]),
     (statusKey, [Cell.str openedName, Cell.str openedName, Cell.str errorName,
       Cell.str clickedName])]

/-- The string `2021-01-02 03:04:05.xyz`: a well-formed timestamp start
followed by a non-numeric tail of four characters. -/
def junkTailTimestamp : List Char :=
  ['2', '0', '2', '1', '-', '0', '1', '-', '0', '2', ' ', '0', '3', ':', '0', '4', ':',
   '0', '5', '.', 'x', 'y', 'z']

/-- The string `A`, used both as a column name and as a target value. -/
def strA : List Char := ['A']

/-- The string `B`. -/
def strB : List Char := ['B']

/-- The string `X`, a column name. -/
def strX : List Char := ['X']

/-- A one-column table whose column `A` holds the single string `A`:
binarising it against target value `A` overwrites the column. -/
def clashDf : DataFrame := DataFrame.mk [(strA, [Cell.str strA])]

/-- A two-column table for exercising `binarise_df` on a fresh target name. -/
def freshDf : DataFrame := DataFrame.mk [(strB, [Cell.str strA, Cell.str strB])]

/-- The day string `2021-01-02`. -/
def day20210102 : List Char := ['2', '0', '2', '1', '-', '0', '1', '-', '0', '2']

/-- A two-row table with day keys out of order and a 0/1 indicator column
`X`, for exercising the daily aggregation. -/
def aggDf : DataFrame :=
  DataFrame.mk
    [(dayKey, [Cell.str day20210102, Cell.str day20210101]),
     (strX, [Cell.num 1, Cell.num 0])]

/-- A two-element numeric sequence. -/
def wData : List ℚ := [1, 2]

/-- Another two-element numeric sequence. -/
def wData2 : List ℚ := [5, 7]

/-! Section: Digit and character lemmas -/

theorem charVal_digitChar {n : Nat} (h : n < 10) : charVal (digitChar n) = n := by
  interval_cases n <;> decide

theorem digitChar_isDigit {n : Nat} (h : n < 10) : (digitChar n).isDigit = true := by
  interval_cases n <;> decide

theorem digitChar_ne_colon {n : Nat} (h : n < 10) : digitChar n ≠ ':' := by
  interval_cases n <;> decide

theorem digitChar_ne_dash {n : Nat} (h : n < 10) : digitChar n ≠ '-' := by
  interval_cases n <;> decide

theorem digitChar_not_space {n : Nat} (h : n < 10) : isSpace (digitChar n) = false := by
  interval_cases n <;> decide

theorem dropWhile_space_digit {n : Nat} (h : n < 10) (r : List Char) :
    List.dropWhile isSpace (digitChar n :: r) = digitChar n :: r := by
  rw [List.dropWhile_cons, digitChar_not_space h]
  simp

/-! Section: Basic matcher lemmas -/

theorem parseY_digits (y : Nat) (hy : y ≤ 9999) (r : List Char) :
    parseY (digitChar (y / 1000) :: digitChar (y / 100 % 10) :: digitChar (y / 10 % 10) ::
      digitChar (y % 10) :: r) = some (y, r) := by
  have h1 : y / 1000 < 10 := by omega
  have h2 : y / 100 % 10 < 10 := by omega
  have h3 : y / 10 % 10 < 10 := by omega
  have h4 : y % 10 < 10 := by omega
  simp [parseY, digitChar_isDigit, h1, h2, h3, h4, charVal_digitChar]
  omega

theorem lit_same (c : Char) (r : List Char) : lit c (c :: r) = some r := by
  simp [lit]

theorem lit_ne {c x : Char} (h : x ≠ c) (r : List Char) : lit c (x :: r) = none := by
  simp [lit, h]

theorem eatWs_space (r : List Char) : eatWs (' ' :: r) = some (r.dropWhile isSpace) := rfl

theorem eatWs_digit {n : Nat} (h : n < 10) (r : List Char) :
    eatWs (digitChar n :: r) = none := by
  simp [eatWs, digitChar_not_space h]

theorem firstSome_cons_some {α β : Type} {f : α → Option β} {x : α} {l : List α} {b : β}
    (h : f x = some b) : firstSome f (x :: l) = some b := by
  simp [firstSome, h]

theorem firstSome_cons_none {α β : Type} (f : α → Option β) (x : α) (l : List α)
    (h : f x = none) : firstSome f (x :: l) = firstSome f l := by
  simp [firstSome, h]

theorem firstSome_eq_none {α β : Type} {f : α → Option β} :
    ∀ {l : List α}, (∀ x ∈ l, f x = none) → firstSome f l = none
  | [], _ => rfl
  | x :: l, h => by
    rw [firstSome_cons_none f x l (h x (List.mem_cons_self x l))]
    exact firstSome_eq_none (fun y hy => h y (List.mem_cons_of_mem x hy))

/-! Section: Alternation lists on canonical two-digit renderings -/

theorem monthAlts_cons (m : Nat) (h1 : 1 ≤ m) (h2 : m ≤ 12) (r : List Char) :
    monthAlts (digitChar (m / 10) :: digitChar (m % 10) :: r) =
      (m, r) :: (if 10 ≤ m then [(1, digitChar (m % 10) :: r)] else []) := by
  interval_cases m <;> rfl

theorem dayAlts_cons (d : Nat) (h1 : 1 ≤ d) (h2 : d ≤ 31) (r : List Char) :
    dayAlts (digitChar (d / 10) :: digitChar (d % 10) :: r) =
      (d, r) :: (if 10 ≤ d then [(d / 10, digitChar (d % 10) :: r)] else []) := by
  interval_cases d <;> rfl

theorem hourAlts_cons (h : Nat) (hh : h ≤ 23) (r : List Char) :
    hourAlts (digitChar (h / 10) :: digitChar (h % 10) :: r) =
      [(h, r), (h / 10, digitChar (h % 10) :: r)] := by
  interval_cases h <;> rfl

theorem minuteAlts_cons (x : Nat) (hx : x ≤ 59) (r : List Char) :
    minuteAlts (digitChar (x / 10) :: digitChar (x % 10) :: r) =
      [(x, r), (x / 10, digitChar (x % 10) :: r)] := by
  interval_cases x <;> rfl

theorem secondAlts_cons (x : Nat) (hx : x ≤ 59) (r : List Char) :
    secondAlts (digitChar (x / 10) :: digitChar (x % 10) :: r) =
      [(x, r), (x / 10, digitChar (x % 10) :: r)] := by
  interval_cases x <;> rfl

theorem minuteAlts_single (n : Nat) (hn : n < 10) :
    minuteAlts [digitChar n] = [(n, [])] := by
  interval_cases n <;> rfl

/-! Section: Successful matches of the two formats on canonical strings -/

theorem tsSec_eval (y m d h mi s : Nat) (hs : s ≤ 59) :
    tsSec y m d h mi (':' :: pad2 s) = some (y, m, d, h, mi, s) := by
  simp only [tsSec]
  rw [lit_same]
  simp only [Option.some_bind, pad2]
  rw [secondAlts_cons s hs []]
  exact firstSome_cons_some rfl

theorem tsMin_eval (y m d h mi s : Nat) (hmi : mi ≤ 59) (hs : s ≤ 59) :
    tsMin y m d h (':' :: (pad2 mi ++ ':' :: pad2 s)) = some (y, m, d, h, mi, s) := by
  simp only [tsMin]
  rw [lit_same]
  simp only [Option.some_bind, pad2, List.cons_append, List.nil_append]
  rw [minuteAlts_cons mi hmi _]
  exact firstSome_cons_some (tsSec_eval y m d h mi s hs)

theorem tsHour_eval (y m d h mi s : Nat) (hh : h ≤ 23) (hmi : mi ≤ 59) (hs : s ≤ 59) :
    tsHour y m d (' ' :: (pad2 h ++ ':' :: (pad2 mi ++ ':' :: pad2 s))) =
      some (y, m, d, h, mi, s) := by
  simp only [tsHour]
  rw [eatWs_space]
  simp only [Option.some_bind, pad2, List.cons_append, List.nil_append]
  rw [dropWhile_space_digit (by omega : h / 10 < 10)]
  rw [hourAlts_cons h hh _]
  exact firstSome_cons_some (tsMin_eval y m d h mi s hmi hs)

theorem tsDay_eval (y m d h mi s : Nat) (hd1 : 1 ≤ d) (hd2 : d ≤ 31) (hh : h ≤ 23)
    (hmi : mi ≤ 59) (hs : s ≤ 59) :
    tsDay y m ('-' :: (pad2 d ++ ' ' :: (pad2 h ++ ':' :: (pad2 mi ++ ':' :: pad2 s)))) =
      some (y, m, d, h, mi, s) := by
  simp only [tsDay]
  rw [lit_same]
  simp only [Option.some_bind, pad2, List.cons_append, List.nil_append]
  rw [dayAlts_cons d hd1 hd2 _]
  exact firstSome_cons_some (tsHour_eval y m d h mi s hh hmi hs)

theorem matchTS_eval (y m d h mi s : Nat) (hy : y ≤ 9999) (hm1 : 1 ≤ m) (hm2 : m ≤ 12)
    (hd1 : 1 ≤ d) (hd2 : d ≤ 31) (hh : h ≤ 23) (hmi : mi ≤ 59) (hs : s ≤ 59) :
    matchTS (fmtTimestamp y m d h mi s) = some (y, m, d, h, mi, s) := by
  simp only [matchTS, fmtTimestamp, fmtDate, pad4, List.cons_append, List.nil_append,
    List.append_assoc]
  rw [parseY_digits y hy]
  simp only [Option.some_bind]
  rw [lit_same]
  simp only [Option.some_bind, pad2, List.cons_append, List.nil_append]
  rw [monthAlts_cons m hm1 hm2]
  exact firstSome_cons_some (tsDay_eval y m d h mi s hd1 hd2 hh hmi hs)

theorem dateDay_eval (y m d : Nat) (hd1 : 1 ≤ d) (hd2 : d ≤ 31) :
    dateDay y m ('-' :: pad2 d) = some (y, m, d) := by
  simp only [dateDay]
  rw [lit_same]
  simp only [Option.some_bind, pad2]
  rw [dayAlts_cons d hd1 hd2 []]
  exact firstSome_cons_some rfl

theorem matchDate_eval (y m d : Nat) (hy : y ≤ 9999) (hm1 : 1 ≤ m) (hm2 : m ≤ 12)
    (hd1 : 1 ≤ d) (hd2 : d ≤ 31) :
    matchDate (fmtDate y m d) = some (y, m, d) := by
  simp only [matchDate, fmtDate, pad4, List.cons_append, List.nil_append, List.append_assoc]
  rw [parseY_digits y hy]
  simp only [Option.some_bind]
  rw [lit_same]
  simp only [Option.some_bind, pad2, List.cons_append, List.nil_append]
  rw [monthAlts_cons m hm1 hm2]
  exact firstSome_cons_some (dateDay_eval y m d hd1 hd2)

/-! Section: Failing matches: no candidate of any alternation survives -/

theorem tsSec_nil (y m d h mi : Nat) : tsSec y m d h mi [] = none := rfl

theorem tsMin_short (y m d h n : Nat) (hn : n < 10) :
    tsMin y m d h (':' :: [digitChar n]) = none := by
  simp only [tsMin]
  rw [lit_same]
  simp only [Option.some_bind]
  rw [minuteAlts_single n hn]
  apply firstSome_eq_none
  intro x hx
  simp only [List.mem_singleton] at hx
  subst hx
  rfl

theorem tsMin_digit (y m d h n : Nat) (hn : n < 10) (r : List Char) :
    tsMin y m d h (digitChar n :: r) = none := by
  simp only [tsMin]
  rw [lit_ne (digitChar_ne_colon hn) r]
  rfl

theorem tsHour_fail (y m d h n : Nat) (hh : h ≤ 23) (hn : n < 10) :
    tsHour y m d (' ' :: (pad2 h ++ [':', digitChar n])) = none := by
  simp only [tsHour]
  rw [eatWs_space]
  simp only [Option.some_bind, pad2, List.cons_append, List.nil_append]
  rw [dropWhile_space_digit (by omega : h / 10 < 10)]
  rw [hourAlts_cons h hh _]
  apply firstSome_eq_none
  intro x hx
  simp only [List.mem_cons, List.not_mem_nil, or_false] at hx
  rcases hx with rfl | rfl
  · exact tsMin_short y m d h n hn
  · exact tsMin_digit y m d (h / 10) (h % 10) (by omega) _

theorem tsHour_digit (y m d n : Nat) (hn : n < 10) (r : List Char) :
    tsHour y m d (digitChar n :: r) = none := by
  simp only [tsHour]
  rw [eatWs_digit hn r]
  rfl

theorem tsDay_fail (y m d h n : Nat) (hd1 : 1 ≤ d) (hd2 : d ≤ 31) (hh : h ≤ 23)
    (hn : n < 10) :
    tsDay y m ('-' :: (pad2 d ++ ' ' :: (pad2 h ++ [':', digitChar n]))) = none := by
  simp only [tsDay]
  rw [lit_same]
  simp only [Option.some_bind, pad2, List.cons_append, List.nil_append]
  rw [dayAlts_cons d hd1 hd2 _]
  apply firstSome_eq_none
  intro x hx
  rcases List.mem_cons.mp hx with rfl | hx2
  · exact tsHour_fail y m d h n hh hn
  · by_cases hc : 10 ≤ d
    · rw [if_pos hc] at hx2
      simp only [List.mem_singleton] at hx2
      subst hx2
      exact tsHour_digit y m (d / 10) (d % 10) (by omega) _
    · rw [if_neg hc] at hx2
      simp at hx2

theorem tsDay_digit (y m n : Nat) (hn : n < 10) (r : List Char) :
    tsDay y m (digitChar n :: r) = none := by
  simp only [tsDay]
  rw [lit_ne (digitChar_ne_dash hn) r]
  rfl

/-- Matching `%Y-%m-%d %H:%M:%S` against a `YYYY-MM-DD HH:MM:SS` string cut
after the first minute digit (which is what `date[:-4]` leaves of it) fails
after exhausting every backtracking candidate. -/
theorem matchTS_noms (y m d h mi : Nat) (hy : y ≤ 9999) (hm1 : 1 ≤ m) (hm2 : m ≤ 12)
    (hd1 : 1 ≤ d) (hd2 : d ≤ 31) (hh : h ≤ 23) (hmi : mi ≤ 59) :
    matchTS (pad4 y ++ '-' :: (pad2 m ++ '-' ::
      (pad2 d ++ ' ' :: (pad2 h ++ [':', digitChar (mi / 10)])))) = none := by
  simp only [matchTS, pad4, List.cons_append, List.nil_append, List.append_assoc]
  rw [parseY_digits y hy]
  simp only [Option.some_bind]
  rw [lit_same]
  simp only [Option.some_bind]
  conv_lhs => rw [show pad2 m ++ '-' :: (pad2 d ++ ' ' :: (pad2 h ++ [':', digitChar (mi / 10)])) =
    digitChar (m / 10) :: digitChar (m % 10) :: '-' ::
      (pad2 d ++ ' ' :: (pad2 h ++ [':', digitChar (mi / 10)])) from rfl]
  rw [monthAlts_cons m hm1 hm2]
  apply firstSome_eq_none
  intro x hx
  rcases List.mem_cons.mp hx with rfl | hx2
  · exact tsDay_fail y m d h (mi / 10) hd1 hd2 hh (by omega)
  · by_cases hc : 10 ≤ m
    · rw [if_pos hc] at hx2
      simp only [List.mem_singleton] at hx2
      subst hx2
      exact tsDay_digit y 1 (m % 10) (by omega) _
    · rw [if_neg hc] at hx2
      simp at hx2

/-- Matching `%Y-%m-%d %H:%M:%S` against a `YYYY-MM-DD` string cut to its
first six characters (what `date[:-4]` leaves of it) fails. -/
theorem matchTS_dateonly (y m : Nat) (hy : y ≤ 9999) (hm1 : 1 ≤ m) (hm2 : m ≤ 12) :
    matchTS (pad4 y ++ ['-', digitChar (m / 10)]) = none := by
  simp only [matchTS, pad4, List.cons_append, List.nil_append]
  rw [parseY_digits y hy]
  simp only [Option.some_bind]
  rw [lit_same]
  simp only [Option.some_bind]
  rcases (by omega : m / 10 = 0 ∨ m / 10 = 1) with hc | hc <;> rw [hc] <;> rfl

theorem dateDay_cons_fail (y m d : Nat) (hd1 : 1 ≤ d) (hd2 : d ≤ 31) (c : Char)
    (r : List Char) : dateDay y m ('-' :: (pad2 d ++ c :: r)) = none := by
  simp only [dateDay]
  rw [lit_same]
  simp only [Option.some_bind, pad2, List.cons_append, List.nil_append]
  rw [dayAlts_cons d hd1 hd2 _]
  apply firstSome_eq_none
  intro x hx
  rcases List.mem_cons.mp hx with rfl | hx2
  · rfl
  · by_cases hc : 10 ≤ d
    · rw [if_pos hc] at hx2
      simp only [List.mem_singleton] at hx2
      subst hx2
      rfl
    · rw [if_neg hc] at hx2
      simp at hx2

theorem dateDay_digit (y m n : Nat) (hn : n < 10) (r : List Char) :
    dateDay y m (digitChar n :: r) = none := by
  simp only [dateDay]
  rw [lit_ne (digitChar_ne_dash hn) r]
  rfl

/-- Matching `%Y-%m-%d` against a canonical date start followed by any
further character fails: `strptime` requires the whole string to match. -/
theorem matchDate_long (y m d : Nat) (hy : y ≤ 9999) (hm1 : 1 ≤ m) (hm2 : m ≤ 12)
    (hd1 : 1 ≤ d) (hd2 : d ≤ 31) (c : Char) (r : List Char) :
    matchDate (pad4 y ++ '-' :: (pad2 m ++ '-' :: (pad2 d ++ c :: r))) = none := by
  simp only [matchDate, pad4, List.cons_append, List.nil_append, List.append_assoc]
  rw [parseY_digits y hy]
  simp only [Option.some_bind]
  rw [lit_same]
  simp only [Option.some_bind]
  conv_lhs => rw [show pad2 m ++ '-' :: (pad2 d ++ c :: r) =
    digitChar (m / 10) :: digitChar (m % 10) :: '-' :: (pad2 d ++ c :: r) from rfl]
  rw [monthAlts_cons m hm1 hm2]
  apply firstSome_eq_none
  intro x hx
  rcases List.mem_cons.mp hx with rfl | hx2
  · exact dateDay_cons_fail y m d hd1 hd2 c r
  · by_cases hc : 10 ≤ m
    · rw [if_pos hc] at hx2
      simp only [List.mem_singleton] at hx2
      subst hx2
      exact dateDay_digit y 1 (m % 10) (by omega) _
    · rw [if_neg hc] at hx2
      simp at hx2

/-! Section: The two strptime calls and date_to_datetime on canonical strings -/

theorem strptime_ts_of_match {s : List Char} {y m d h mi sec : Nat}
    (hm : matchTS s = some (y, m, d, h, mi, sec)) :
    strptime_ts s = mkDatetime y m d h mi sec := by
  simp [strptime_ts, hm]

theorem strptime_ts_of_fail {s : List Char} (hm : matchTS s = none) :
    strptime_ts s = none := by
  simp [strptime_ts, hm]

theorem strptime_date_of_match {s : List Char} {y m d : Nat}
    (hm : matchDate s = some (y, m, d)) :
    strptime_date s = mkDatetime y m d 0 0 0 := by
  simp [strptime_date, hm]

theorem strptime_date_of_fail {s : List Char} (hm : matchDate s = none) :
    strptime_date s = none := by
  simp [strptime_date, hm]

theorem take_fmtDate (y m d : Nat) :
    (fmtDate y m d).take ((fmtDate y m d).length - 4) =
      pad4 y ++ ['-', digitChar (m / 10)] := rfl

theorem take_fmtTimestamp (y m d h mi s : Nat) :
    (fmtTimestamp y m d h mi s).take ((fmtTimestamp y m d h mi s).length - 4) =
      pad4 y ++ '-' :: (pad2 m ++ '-' ::
        (pad2 d ++ ' ' :: (pad2 h ++ [':', digitChar (mi / 10)]))) := rfl

theorem take_fmtTimestampMs (y m d h mi s ms : Nat) :
    (fmtTimestampMs y m d h mi s ms).take ((fmtTimestampMs y m d h mi s ms).length - 4) =
      fmtTimestamp y m d h mi s := rfl

theorem day_le_31 {y m d : Nat} (h : d ≤ daysInMonth y m) : d ≤ 31 := by
  unfold daysInMonth at h
  split_ifs at h <;> omega

/-- A canonical `YYYY-MM-DD` string of a valid calendar date parses to that
date at midnight: the truncated first attempt fails, the fallback succeeds. -/
theorem dt_fmtDate {y m d : Nat} (h : validDate y m d) :
    date_to_datetime (fmtDate y m d) = some (PyDateTime.mk y m d 0 0 0) := by
  obtain ⟨hy1, hy2, hm1, hm2, hd1, hd2⟩ := h
  unfold date_to_datetime
  rw [take_fmtDate, strptime_ts_of_fail (matchTS_dateonly y m hy2 hm1 hm2)]
  show strptime_date (fmtDate y m d) = some (PyDateTime.mk y m d 0 0 0)
  rw [strptime_date_of_match (matchDate_eval y m d hy2 hm1 hm2 hd1 (day_le_31 hd2))]
  simp only [mkDatetime]
  rw [if_pos ⟨⟨hy1, hy2, hm1, hm2, hd1, hd2⟩, by decide⟩]

/-- A canonical `YYYY-MM-DD HH:MM:SS.mmm` string of a valid date and time
parses to that date and time, the milliseconds discarded: `date[:-4]` cuts
exactly the `.mmm` suffix and the first attempt succeeds. -/
theorem dt_fmtTimestampMs {y m d h mi s : Nat} (ms : Nat) (hD : validDate y m d)
    (hT : validTime h mi s) :
    date_to_datetime (fmtTimestampMs y m d h mi s ms) =
      some (PyDateTime.mk y m d h mi s) := by
  obtain ⟨hy1, hy2, hm1, hm2, hd1, hd2⟩ := hD
  obtain ⟨hh, hmi, hs⟩ := hT
  unfold date_to_datetime
  rw [take_fmtTimestampMs,
    strptime_ts_of_match
      (matchTS_eval y m d h mi s hy2 hm1 hm2 hd1 (day_le_31 hd2) hh hmi hs)]
  simp only [mkDatetime]
  rw [if_pos ⟨⟨hy1, hy2, hm1, hm2, hd1, hd2⟩, ⟨hh, hmi, hs⟩⟩]

/-- A canonical `YYYY-MM-DD HH:MM:SS` string (no millisecond suffix) fails
to parse: the truncation breaks the first attempt and the date-only
fallback rejects the remaining time of day. -/
theorem dt_fmtTimestamp_none {y m d h mi s : Nat} (hD : validDate y m d)
    (hT : validTime h mi s) :
    date_to_datetime (fmtTimestamp y m d h mi s) = none := by
  obtain ⟨hy1, hy2, hm1, hm2, hd1, hd2⟩ := hD
  obtain ⟨hh, hmi, hs⟩ := hT
  unfold date_to_datetime
  rw [take_fmtTimestamp,
    strptime_ts_of_fail
      (matchTS_noms y m d h mi hy2 hm1 hm2 hd1 (day_le_31 hd2) hh hmi)]
  show strptime_date (fmtTimestamp y m d h mi s) = none
  have hshape : fmtTimestamp y m d h mi s =
      pad4 y ++ '-' :: (pad2 m ++ '-' :: (pad2 d ++ ' ' ::
        (pad2 h ++ ':' :: (pad2 mi ++ ':' :: pad2 s)))) := by
    simp [fmtTimestamp, fmtDate]
  rw [hshape,
    strptime_date_of_fail
      (matchDate_long y m d hy2 hm1 hm2 hd1 (day_le_31 hd2) ' ' _)]

/-! Section: Moving-average lemmas -/

theorem getD_singleton_ne {x : ℚ} {j : Nat} (hj : j ≠ 0) : [x].getD j 0 = 0 := by
  cases j with
  | zero => exact absurd rfl hj
  | succ n => rfl

theorem convFullCoeff_single_one (a : List ℚ) (k : Nat) :
    convFullCoeff a [1] k = a.getD k 0 := by
  unfold convFullCoeff
  rw [Finset.sum_eq_single k]
  · simp
  · intro b hb hbk
    have hkb : k - b ≠ 0 := by
      simp only [Finset.mem_range] at hb
      omega
    rw [getD_singleton_ne hkb, mul_zero]
  · intro hk
    exact absurd (Finset.self_mem_range_succ k) hk

theorem range_map_getD (a : List ℚ) :
    (List.range a.length).map (fun k => a.getD k 0) = a := by
  apply List.ext_getElem
  · simp
  · intro n h1 h2
    simp only [List.getElem_map, List.getElem_range]
    rw [List.getD_eq_getElem a 0 h2]

/-! Section: List and mean lemmas for the daily aggregation -/

theorem optMap_cellStr (l : List (List Char)) :
    optMap cellStr? (l.map Cell.str) = some l := by
  induction l with
  | nil => rfl
  | cons x xs ih => simp [optMap, cellStr?, ih]

theorem optMap_cellNum (l : List ℚ) :
    optMap cellNum? (l.map Cell.num) = some l := by
  induction l with
  | nil => rfl
  | cons x xs ih => simp [optMap, cellNum?, ih]

theorem mem_dedupKeys {a : List Char} :
    ∀ {l : List (List Char)}, a ∈ dedupKeys l ↔ a ∈ l
  | [] => Iff.rfl
  | x :: xs => by
    by_cases hx : x ∈ dedupKeys xs
    · rw [show dedupKeys (x :: xs) = dedupKeys xs from by simp [dedupKeys, hx]]
      constructor
      · intro h
        exact List.mem_cons_of_mem x (mem_dedupKeys.mp h)
      · intro h
        rcases List.mem_cons.mp h with rfl | h2
        · exact hx
        · exact mem_dedupKeys.mpr h2
    · rw [show dedupKeys (x :: xs) = x :: dedupKeys xs from by simp [dedupKeys, hx]]
      simp only [List.mem_cons, mem_dedupKeys]

theorem nodup_dedupKeys : ∀ l : List (List Char), (dedupKeys l).Nodup
  | [] => List.nodup_nil
  | x :: xs => by
    by_cases hx : x ∈ dedupKeys xs
    · rw [show dedupKeys (x :: xs) = dedupKeys xs from by simp [dedupKeys, hx]]
      exact nodup_dedupKeys xs
    · rw [show dedupKeys (x :: xs) = x :: dedupKeys xs from by simp [dedupKeys, hx]]
      exact List.nodup_cons.mpr ⟨hx, nodup_dedupKeys xs⟩

theorem strLe_total : ∀ a b : List Char, strLe a b = true ∨ strLe b a = true
  | [], _ => Or.inl rfl
  | _ :: _, [] => Or.inr rfl
  | x :: xs, y :: ys => by
    rcases Nat.lt_trichotomy x.toNat y.toNat with h1 | h1 | h1
    · left
      simp [strLe, h1]
    · rcases strLe_total xs ys with h2 | h2
      · left
        simp only [strLe]
        rw [if_neg (by omega), if_neg (by omega)]
        exact h2
      · right
        simp only [strLe]
        rw [if_neg (by omega), if_neg (by omega)]
        exact h2
    · right
      simp [strLe, h1]

theorem strLe_trans :
    ∀ a b c : List Char, strLe a b = true → strLe b c = true → strLe a c = true
  | [], _, _, _, _ => rfl
  | x :: xs, [], _, hab, _ => by simp [strLe] at hab
  | _ :: _, _ :: _, [], _, hbc => by simp [strLe] at hbc
  | x :: xs, y :: ys, z :: zs, hab, hbc => by
    simp only [strLe] at hab hbc ⊢
    rcases Nat.lt_trichotomy x.toNat y.toNat with h1 | h1 | h1
    · rcases Nat.lt_trichotomy y.toNat z.toNat with h2 | h2 | h2
      · rw [if_pos (by omega)]
      · rw [if_pos (by omega)]
      · rw [if_neg (by omega), if_pos h2] at hbc
        exact Bool.noConfusion hbc
    · rcases Nat.lt_trichotomy y.toNat z.toNat with h2 | h2 | h2
      · rw [if_pos (by omega)]
      · rw [if_neg (by omega), if_neg (by omega)] at hab
        rw [if_neg (by omega), if_neg (by omega)] at hbc
        rw [if_neg (by omega), if_neg (by omega)]
        exact strLe_trans xs ys zs hab hbc
      · rw [if_neg (by omega), if_pos h2] at hbc
        exact Bool.noConfusion hbc
    · rw [if_neg (by omega), if_pos h1] at hab
      exact Bool.noConfusion hab

theorem sum_le_length_of_unit :
    ∀ l : List ℚ, (∀ x ∈ l, x = 0 ∨ x = 1) → 0 ≤ l.sum ∧ l.sum ≤ (l.length : ℚ)
  | [], _ => by simp
  | x :: xs, h => by
    have hx := h x (List.mem_cons_self x xs)
    have ih := sum_le_length_of_unit xs (fun y hy => h y (List.mem_cons_of_mem x hy))
    simp only [List.sum_cons, List.length_cons]
    push_cast
    rcases hx with rfl | rfl <;> constructor <;> linarith [ih.1, ih.2]

theorem mean_unit {l : List ℚ} (hne : l ≠ []) (h : ∀ x ∈ l, x = 0 ∨ x = 1) :
    0 ≤ mean l ∧ mean l ≤ 1 := by
  have hlen : l.length ≠ 0 := fun hh => hne (List.length_eq_zero.mp hh)
  have hpos : (0 : ℚ) < l.length := by exact_mod_cast Nat.pos_of_ne_zero hlen
  obtain ⟨h0, h1⟩ := sum_le_length_of_unit l h
  constructor
  · exact div_nonneg h0 (le_of_lt hpos)
  · rw [mean, div_le_one hpos]
    exact h1

theorem exists_mem_zip {α β : Type} {a : α} :
    ∀ {l1 : List α} {l2 : List β}, a ∈ l1 → l1.length = l2.length →
      ∃ b, (a, b) ∈ l1.zip l2
  | [], _, ha, _ => absurd ha (List.not_mem_nil a)
  | _ :: _, [], _, hlen => by simp at hlen
  | x :: xs, y :: ys, ha, hlen => by
    rcases List.mem_cons.mp ha with rfl | h2
    · exact ⟨y, List.mem_cons_self _ _⟩
    · obtain ⟨b, hb⟩ := exists_mem_zip h2 (by simpa using hlen)
      exact ⟨b, List.mem_cons_of_mem _ hb⟩

/-! Section: The claims -/

/-- C1, counterexample: `moving_average` on the three-element sequence
`[0, 0, 1]` with window 4 returns a sequence of length 4, not of the input
length 3 — `np.convolve` in mode `same` returns `max(len, window)` values. -/
theorem claim1_length_cex :
    (moving_average [0, 0, 1] 4).map List.length = some 4 ∧
    (moving_average [0, 0, 1] 4).map List.length ≠ some 3 := by
  have h : (moving_average [0, 0, 1] 4).map List.length = some 4 := rfl
  refine ⟨h, ?_⟩
  rw [h]
  simp

/-- C1, amended: for every nonempty numeric sequence and positive window,
the Smoother returns a sequence of length `max(input length, window)` —
which equals the input length exactly when the window does not exceed it;
the empty sequence raises instead. -/
theorem claim1_length_same_mode (data : List ℚ) (window : Nat) (hd : data ≠ [])
    (hw : 1 ≤ window) :
    (moving_average data window).map List.length = some (max data.length window) := by
  have hlen : data.length ≠ 0 := fun h => hd (List.length_eq_zero.mp h)
  unfold moving_average npConvolveSame npConvolve
  simp only [List.length_replicate]
  rw [if_neg (show ¬(data.length = 0 ∨ window = 0) from by omega)]
  simp only [Option.map_some', Option.some.injEq, List.length_take, List.length_drop,
    List.length_map, List.length_range]
  omega

/-- C1, witness: a length-2 sequence smoothed with window 5 yields 5 values. -/
theorem claim1_length_witness : (moving_average wData 5).map List.length = some 5 := by
  have h := claim1_length_same_mode wData 5 (by decide) (by omega)
  rwa [show max wData.length 5 = 5 from by decide] at h

/-- C2: the Binarizer preserves length, marks exactly the positions equal to
the target (exact equality) with 1 and the rest with 0, and on
`["A", "B", "A"]` with target `"A"` yields `[1, 0, 1]`. -/
theorem claim2_binarise_spec :
    (∀ (α : Type) [DecidableEq α] (data : List α) (v : α),
      (binarise data v).length = data.length ∧
      ∀ i : Nat, (binarise data v).get? i =
        Option.map (fun x => if x = v then 1 else 0) (data.get? i)) ∧
    binarise [strA, strB, strA] strA = [1, 0, 1] := by
  constructor
  · intro α _ data v
    constructor
    · simp [binarise]
    · intro i
      simp [binarise, List.get?_eq_getElem?, List.getElem?_map]
  · decide

/-- C2, witness: the generic part of the Binarizer contract evaluated on a
concrete two-element list. -/
theorem claim2_binarise_spec_witness : (binarise [strA, strB] strA).length = 2 := by
  have h := (claim2_binarise_spec.1 (List Char) [strA, strB] strA).1
  simpa using h

/-- C3: every canonical `YYYY-MM-DD` string denoting a valid calendar date
parses to that date with a zero time of day, the truncated first parse
attempt notwithstanding. -/
theorem claim3_dateparser_date (y m d : Nat) (h : validDate y m d) :
    date_to_datetime (fmtDate y m d) = some (PyDateTime.mk y m d 0 0 0) :=
  dt_fmtDate h

/-- C3, witness: `2021-03-04` parses to 2021-03-04 00:00:00. -/
theorem claim3_dateparser_date_witness :
    date_to_datetime (fmtDate 2021 3 4) = some (PyDateTime.mk 2021 3 4 0 0 0) :=
  claim3_dateparser_date 2021 3 4 (by decide)

/-- C4: every canonical `YYYY-MM-DD HH:MM:SS.mmm` string denoting a valid
date and time parses to that date and time with the milliseconds discarded. -/
theorem claim4_dateparser_timestamp (y m d h mi s ms : Nat) (hD : validDate y m d)
    (hT : validTime h mi s) :
    date_to_datetime (fmtTimestampMs y m d h mi s ms) =
      some (PyDateTime.mk y m d h mi s) :=
  dt_fmtTimestampMs ms hD hT

/-- C4, witness: `2021-03-04 10:15:30.123` parses to 2021-03-04 10:15:30. -/
theorem claim4_dateparser_timestamp_witness :
    date_to_datetime (fmtTimestampMs 2021 3 4 10 15 30 123) =
      some (PyDateTime.mk 2021 3 4 10 15 30) :=
  claim4_dateparser_timestamp 2021 3 4 10 15 30 123 (by decide) (by decide)

/-- C5, counterexample: `2021-01-02 03:04:05.xyz` matches neither of the two
spec forms, yet the DateParser accepts it — `date[:-4]` blindly removes the
non-numeric tail and the remainder parses as a timestamp. -/
theorem claim5_error_cex :
    specCanonTimestampMs junkTailTimestamp = false ∧
    specCanonDate junkTailTimestamp = false ∧
    date_to_datetime junkTailTimestamp = some (PyDateTime.mk 2021 1 2 3 4 5) := by
  refine ⟨rfl, rfl, rfl⟩

/-- C5, amended: every string of either canonical form parses successfully,
and the parse fails exactly when both the truncated timestamp attempt and
the whole-string date fallback fail — but some strings matching neither
canonical form are accepted as well. -/
theorem claim5_error_amended :
    (∀ y m d : Nat, validDate y m d → (date_to_datetime (fmtDate y m d)).isSome = true) ∧
    (∀ y m d h mi s ms : Nat, validDate y m d → validTime h mi s →
      (date_to_datetime (fmtTimestampMs y m d h mi s ms)).isSome = true) ∧
    (∀ s : List Char, date_to_datetime s = none ↔
      strptime_ts (s.take (s.length - 4)) = none ∧ strptime_date s = none) := by
  refine ⟨?_, ?_, ?_⟩
  · intro y m d h
    rw [dt_fmtDate h]
    rfl
  · intro y m d h mi s ms hD hT
    rw [dt_fmtTimestampMs ms hD hT]
    rfl
  · intro s
    unfold date_to_datetime
    cases hts : strptime_ts (s.take (s.length - 4)) with
    | some dt => simp [hts]
    | none => simp [hts]

/-- C5, witness: `1999-12-31` is accepted. -/
theorem claim5_error_witness : (date_to_datetime (fmtDate 1999 12 31)).isSome = true :=
  claim5_error_amended.1 1999 12 31 (by decide)

/-- C10: a `YYYY-MM-DD HH:MM:SS` string with no millisecond suffix always
fails to parse: the truncation leaves a string matching neither format. -/
theorem claim10_no_ms_rejected (y m d h mi s : Nat) (hD : validDate y m d)
    (hT : validTime h mi s) :
    date_to_datetime (fmtTimestamp y m d h mi s) = none :=
  dt_fmtTimestamp_none hD hT

/-- C10, witness: `2021-03-04 10:15:30` is rejected. -/
theorem claim10_no_ms_rejected_witness :
    date_to_datetime (fmtTimestamp 2021 3 4 10 15 30) = none :=
  claim10_no_ms_rejected 2021 3 4 10 15 30 (by decide) (by decide)

/-- C6: on a table with a day column of strings and a 0/1 indicator column,
the groupby-mean step yields exactly one entry per distinct day present
(no duplicates, same membership), ordered ascending by day, every value in
the closed interval from 0 to 1. -/
theorem claim6_daily_aggregator (df : DataFrame) (col : List Char)
    (keys : List (List Char)) (vals : List ℚ)
    (hk : dfGetCol df dayKey = some (keys.map Cell.str))
    (hv : dfGetCol df col = some (vals.map Cell.num))
    (hlen : keys.length = vals.length)
    (hbin : ∀ v ∈ vals, v = 0 ∨ v = 1) :
    ∃ res, groupbyMean df dayKey col = some res ∧
      (res.map Prod.fst).Nodup ∧
      (∀ k, k ∈ res.map Prod.fst ↔ k ∈ keys) ∧
      List.Pairwise keyLe (res.map Prod.fst) ∧
      ∀ p ∈ res, 0 ≤ p.2 ∧ p.2 ≤ 1 := by
  refine ⟨(sortKeys (dedupKeys keys)).map (fun k =>
    (k, mean ((keys.zip vals).filterMap
      (fun q => if q.1 = k then some q.2 else none)))), ?_, ?_⟩
  · unfold groupbyMean
    rw [hk, hv]
    simp only [Option.some_bind]
    rw [optMap_cellStr, optMap_cellNum]
    simp only [Option.some_bind, Option.map_some']
  have hfst : ((sortKeys (dedupKeys keys)).map (fun k =>
      (k, mean ((keys.zip vals).filterMap
        (fun q => if q.1 = k then some q.2 else none))))).map Prod.fst =
      sortKeys (dedupKeys keys) := by
    simp only [List.map_map]
    rw [show (Prod.fst ∘ fun k : List Char =>
        (k, mean ((keys.zip vals).filterMap
          (fun q => if q.1 = k then some q.2 else none)))) = id from rfl]
    exact List.map_id _
  have hperm := List.perm_insertionSort keyLe (dedupKeys keys)
  refine ⟨?_, ?_, ?_, ?_⟩
  · rw [hfst]
    exact hperm.nodup_iff.mpr (nodup_dedupKeys keys)
  · intro k
    rw [hfst]
    unfold sortKeys
    rw [hperm.mem_iff]
    exact mem_dedupKeys
  · rw [hfst]
    have htot : IsTotal (List Char) keyLe := ⟨strLe_total⟩
    have htr : IsTrans (List Char) keyLe := ⟨strLe_trans⟩
    exact @List.sorted_insertionSort _ keyLe _ htot htr (dedupKeys keys)
  · intro p hp
    simp only [List.mem_map] at hp
    obtain ⟨k, hk2, rfl⟩ := hp
    have hkmem : k ∈ keys := mem_dedupKeys.mp (hperm.mem_iff.mp hk2)
    obtain ⟨v, hv2⟩ := exists_mem_zip hkmem hlen
    have hvin : v ∈ (keys.zip vals).filterMap
        (fun q => if q.1 = k then some q.2 else none) := by
      apply List.mem_filterMap.mpr
      exact ⟨(k, v), hv2, by simp⟩
    have hall : ∀ x ∈ (keys.zip vals).filterMap
        (fun q => if q.1 = k then some q.2 else none), x = 0 ∨ x = 1 := by
      intro x hx
      obtain ⟨q, hq, he⟩ := List.mem_filterMap.mp hx
      by_cases hqk : q.1 = k
      · rw [if_pos hqk] at he
        obtain rfl : q.2 = x := Option.some.inj he
        obtain ⟨q1, q2⟩ := q
        exact hbin q2 (List.of_mem_zip hq).2
      · rw [if_neg hqk] at he
        exact Option.noConfusion he
    exact mean_unit (List.ne_nil_of_mem hvin) hall

/-- C6, witness: a two-row table with days out of order and indicator
values 1 and 0 satisfies the aggregator contract. -/
theorem claim6_daily_aggregator_witness :
    ∃ res, groupbyMean aggDf dayKey strX = some res ∧
      (res.map Prod.fst).Nodup ∧
      (∀ k, k ∈ res.map Prod.fst ↔ k ∈ [day20210102, day20210101]) ∧
      List.Pairwise keyLe (res.map Prod.fst) ∧
      ∀ p ∈ res, 0 ≤ p.2 ∧ p.2 ≤ 1 :=
  claim6_daily_aggregator aggDf strX [day20210102, day20210101] [1, 0] rfl rfl rfl
    (by
      intro v hv
      rcases List.mem_cons.mp hv with rfl | hv2
      · right
        rfl
      · rcases List.mem_cons.mp hv2 with rfl | hv3
        · left
          rfl
        · exact absurd hv3 (List.not_mem_nil v))

/-- C7: on the four-row single-day table, the per-day aggregated rates are
Opened 1/2, Error 1/4, Clicked 1/4, Unsubscribed 0, and the shared time
axis has exactly one entry. -/
theorem claim7_end_to_end :
    interactionsAgg sampleTable openedName = some [1 / 2] ∧
    interactionsAgg sampleTable errorName = some [1 / 4] ∧
    interactionsAgg sampleTable clickedName = some [1 / 4] ∧
    interactionsAgg sampleTable unsubName = some [0] ∧
    (get_times sampleTable).map List.length = some 1 := by
  have hO : interactionsAgg sampleTable openedName =
      some [mean [((1 : Nat) : ℚ), ((1 : Nat) : ℚ), ((0 : Nat) : ℚ), ((0 : Nat) : ℚ)]] := rfl
  have hE : interactionsAgg sampleTable errorName =
      some [mean [((0 : Nat) : ℚ), ((0 : Nat) : ℚ), ((1 : Nat) : ℚ), ((0 : Nat) : ℚ)]] := rfl
  have hC : interactionsAgg sampleTable clickedName =
      some [mean [((0 : Nat) : ℚ), ((0 : Nat) : ℚ), ((0 : Nat) : ℚ), ((1 : Nat) : ℚ)]] := rfl
  have hU : interactionsAgg sampleTable unsubName =
      some [mean [((0 : Nat) : ℚ), ((0 : Nat) : ℚ), ((0 : Nat) : ℚ), ((0 : Nat) : ℚ)]] := rfl
  refine ⟨?_, ?_, ?_, ?_, rfl⟩
  · rw [hO]
    norm_num [mean]
  · rw [hE]
    norm_num [mean]
  · rw [hC]
    norm_num [mean]
  · rw [hU]
    norm_num [mean]

/-- C8, counterexample: on the empty sequence, smoothing with window 1
raises (numpy rejects an empty input) instead of returning the sequence. -/
theorem claim8_identity_cex :
    moving_average ([] : List ℚ) 1 = none ∧ (none : Option (List ℚ)) ≠ some [] :=
  ⟨rfl, by simp⟩

/-- C8, amended: for every nonempty numeric sequence, smoothing with window
1 is the identity; and on `[0, 0, 1, 0, 0]` with window 3 the centre
element of the output is 1/3. -/
theorem claim8_identity_amended :
    (∀ data : List ℚ, data ≠ [] → moving_average data 1 = some data) ∧
    (moving_average [0, 0, 1, 0, 0] 3).bind (fun l => l.get? 2) = some (1 / 3) := by
  constructor
  · intro data hd
    have hlen : data.length ≠ 0 := fun h => hd (List.length_eq_zero.mp h)
    unfold moving_average
    rw [show List.replicate 1 (1 / ((1 : Nat) : ℚ)) = [1] from by norm_num]
    unfold npConvolveSame npConvolve
    rw [if_neg (show ¬(data.length = 0 ∨ [(1 : ℚ)].length = 0) from by simp [hlen])]
    simp only [Option.map_some']
    congr 1
    have hfull : (List.range (data.length + [(1 : ℚ)].length - 1)).map
        (convFullCoeff data [1]) = data := by
      rw [show data.length + [(1 : ℚ)].length - 1 = data.length from by simp]
      rw [show (convFullCoeff data [1]) = fun k => data.getD k 0 from
        funext (convFullCoeff_single_one data)]
      exact range_map_getD data
    rw [hfull]
    rw [show min data.length [(1 : ℚ)].length = 1 from by
      simp only [List.length_singleton]; omega]
    rw [show (1 - 1) / 2 = 0 from rfl, List.drop_zero]
    rw [show max data.length [(1 : ℚ)].length = data.length from by
      simp only [List.length_singleton]; omega]
    exact List.take_length data
  · have h : (moving_average [0, 0, 1, 0, 0] 3).bind (fun l => l.get? 2) =
        some (convFullCoeff [0, 0, 1, 0, 0] (List.replicate 3 (1 / ((3 : Nat) : ℚ))) 3) := rfl
    rw [h]
    norm_num [convFullCoeff, Finset.sum_range_succ, List.replicate,
      List.getD_cons_zero, List.getD_cons_succ]

/-- C8, witness: `[5, 7]` smoothed with window 1 is returned unchanged. -/
theorem claim8_identity_witness : moving_average wData2 1 = some wData2 :=
  claim8_identity_amended.1 wData2 (by decide)

/-- C9, counterexample: when the target value names an existing column
(table with column `A` holding `["A"]`, target `A`, source `A`), the call
overwrites that column in place: no new column appears and the
pre-existing column's contents change. -/
theorem claim9_frame_cex :
    (binarise_df clashDf strA strA).map (fun d => d.cols.map Prod.fst) = some [strA] ∧
    (binarise_df clashDf strA strA).bind (fun d => dfGetCol d strA) =
      some [natCell 1] ∧
    dfGetCol clashDf strA = some [Cell.str strA] ∧
    natCell 1 ≠ Cell.str strA :=
  ⟨rfl, rfl, rfl, fun h => Cell.noConfusion h⟩

/-- C9, amended: when the source column exists and the target value is not
already a column name, the call returns the table extended with exactly one
new column named after the target value holding the binarised data, all
pre-existing columns and the row count unchanged. -/
theorem claim9_frame_amended (df : DataFrame) (value column : List Char)
    (col : List Cell) (hcol : dfGetCol df column = some col)
    (hnew : dfHasCol df value = false) :
    binarise_df df value column =
      some (DataFrame.mk (df.cols ++
        [(value, (binarise col (Cell.str value)).map natCell)])) ∧
    ((binarise col (Cell.str value)).map natCell).length = col.length := by
  constructor
  · unfold binarise_df
    rw [hcol]
    simp only [Option.map_some']
    simp [dfAssign, hnew]
  · simp only [binarise, List.length_map]

/-- C9, witness: binarising the two-row column `B` of a table against the
fresh target value `A` appends one column named `A`. -/
theorem claim9_frame_witness :
    binarise_df freshDf strA strB =
      some (DataFrame.mk (freshDf.cols ++
        [(strA, (binarise [Cell.str strA, Cell.str strB] (Cell.str strA)).map natCell)])) ∧
    ((binarise [Cell.str strA, Cell.str strB] (Cell.str strA)).map natCell).length =
      ([Cell.str strA, Cell.str strB] : List Cell).length :=
  claim9_frame_amended freshDf strA strB [Cell.str strA, Cell.str strB] rfl rfl
